import Mathlib

/-!
Verification of the CODAP hierarchical case-data model and change engine

Shallow embedding of `DG.DataContext` (change dispatch: `applyChange`,
`performChange`, `doCreateCases`, `doSelectCases`, `doDeleteCases`) and of
`DG.CaseTableDataManager` (the case-table row index with collapse/expand),
translated from the JavaScript source.  Weak object references (case → parent,
case → children, collection → data context) are modelled as numeric IDs
resolved through the data context's arena, mirroring the ID-keyed stores of
the source.  Primitives of `DG.CollectionClient` / `DG.Case` /
`DG.CaseTableModel` that are not part of the excerpted source are modelled
from the specification and are marked with a doc comment starting
`Modelled from the spec:`.
-/

namespace CODAP

/-- An untyped scalar case value (number, string, boolean, or the
distinguished missing sentinel), as stored in a case's `_valuesMap`. -/
inductive DGValue where
  | num (n : Int)
  | str (s : String)
  | boolv (b : Bool)
  | missing
deriving DecidableEq, Repr

/-- A parent reference as it appears in `iChange.properties.parent`.
`byId` models a plain numeric case ID (JS `typeof` is not `'object'`);
`byCase` models passing a `DG.Case` object reference (JS `typeof` is
`'object'`), identified here by the referenced case's ID. -/
inductive ParentRef where
  | byId (id : Nat)
  | byCase (id : Nat)
deriving DecidableEq, Repr

/-- The `iChange.properties` bag used by case creation. -/
structure CaseProps where
  parent : Option ParentRef := none
  index : Option Nat := none
deriving DecidableEq, Repr

/-- The operation tag of a change descriptor together with its
operation-specific fields.  Operations not needed by the claims
(`createCollection`, attribute operations, `resetCollections`,
unknown tags) are grouped under `other`; like the real handlers they
never touch the change log or the change counter. -/
inductive ChangeOp where
  | createCase (collection : Option Nat) (props : CaseProps)
      (values : Option (List DGValue))
  | createCases (collection : Option Nat) (props : CaseProps)
      (values : Option (List (List DGValue)))
  | selectCases (collection : Option Nat) (cases : Option (List Nat))
      (select : Bool) (extendSel : Bool)
  | deleteCases (cases : List Nat)
  | other (name : String)
deriving DecidableEq, Repr

/-- An operation name the context has no handler for. -/
def unknownOpName : String :=
  "unknownOp"

/-- A sample textual attribute value used in concrete scenarios. -/
def xText : String :=
  "x"

/-- A change descriptor (`iChange`). -/
structure Change where
  op : ChangeOp
  isComplete : Bool := false
deriving DecidableEq, Repr

/-- The result object returned by `performChange` handlers:
`success` plus the case-creation payload. -/
structure ChangeResult where
  success : Bool := false
  caseIDs : List Nat := []
  caseID : Option Nat := none
deriving DecidableEq, Repr

/-- A change record as appended to the context's change log
(the change object with its result attached). -/
structure LoggedChange where
  change : Change
  result : ChangeResult
deriving DecidableEq, Repr

/-- A `DG.Case` record in the store's arena.  `valuesMap` models
`_valuesMap`, keyed by attribute ID.  Destroyed cases remain in the arena
with `isDestroyed` set, mirroring the `isDestroyed` flag of the source. -/
structure DGCase where
  id : Nat
  collectionId : Nat
  parent : Option Nat := none
  children : List Nat := []
  valuesMap : List (Nat × DGValue) := []
  isDestroyed : Bool := false
deriving DecidableEq, Repr

/-- A collection together with its cases controller state: the ordered case
list (`casesRecords` / `caseIDToIndexMap` order) and the selection set. -/
structure Collection where
  id : Nat
  parentCollectionId : Option Nat := none
  attrIds : List Nat := []
  caseIds : List Nat := []
  selection : List Nat := []
deriving DecidableEq, Repr

/-- The `DG.DataContext` state: collections in parent → child order, the
case arena (`DG.store`), the change log, the change counters, and the seed
for fresh case IDs.  The deferred end-of-run-loop mirror of `_changeCount`
into the observed `changeCount` property collapses in this synchronous
embedding, so a single `changeCount` field stands for both. -/
structure DataContext where
  collections : List Collection := []
  cases : List DGCase := []
  changes : List LoggedChange := []
  changeCount : Nat := 0
  selectionChangeCount : Nat := 0
  nextCaseId : Nat := 1
deriving DecidableEq, Repr

/-- Store lookup including destroyed records (internal arena access). -/
def findCaseRecord (ctx : DataContext) (caseId : Nat) : Option DGCase :=
  ctx.cases.find? (fun c => c.id == caseId)

/-- Source `getCaseByID`: resolves a case ID to an existing, non-destroyed case. -/
def getCaseByID (ctx : DataContext) (caseId : Nat) : Option DGCase :=
  ctx.cases.find? (fun c => c.id == caseId && !c.isDestroyed)

/-- Source `getCollectionByID`. -/
def getCollectionByID (ctx : DataContext) (collId : Nat) : Option Collection :=
  ctx.collections.find? (fun coll => coll.id == collId)

/-- Source `childCollection`: the child/leaf collection is the last one in the
parent → child ordered list. -/
def childCollection (ctx : DataContext) : Option Collection :=
  ctx.collections.getLast?

/-- Source `DG.Case.getValue`: the value recorded for an attribute ID,
or the missing sentinel (JS `undefined`). -/
def caseGetValue (c : DGCase) (attrId : Nat) : DGValue :=
  match c.valuesMap.find? (fun p => p.1 == attrId) with
  | some p => p.2
  | none => DGValue.missing

/-- Update the case record with the given ID in the arena. -/
def updateCaseRec (ctx : DataContext) (caseId : Nat) (f : DGCase → DGCase) :
    DataContext :=
  { ctx with cases := ctx.cases.map (fun c => if c.id == caseId then f c else c) }

/-- Update the collection with the given ID. -/
def updateCollectionRec (ctx : DataContext) (collId : Nat)
    (f : Collection → Collection) : DataContext :=
  { ctx with collections :=
      ctx.collections.map (fun coll => if coll.id == collId then f coll else coll) }

/-- Insert an element at a position (clamped append past the end). -/
def insertAt (l : List Nat) (pos : Nat) (x : Nat) : List Nat :=
  l.take pos ++ x :: l.drop pos

/-- Source `validateParent` of `doCreateCases`: true if either the collection has no
(truthy) parent collection ID or the parent key resolves to an existing,
non-destroyed case.  A JS-falsy parent collection ID (absent or `0`) skips
the check; an absent parent key (`undefined`) never resolves. -/
def validateParent (ctx : DataContext) (coll : Option Collection)
    (parentKey : Option Nat) : Bool :=
  match coll with
  | none => true
  | some c =>
    match c.parentCollectionId with
    | none => true
    | some pcid =>
      if pcid == 0 then true
      else
        match parentKey with
        | some k => (getCaseByID ctx k).isSome
        | none => false

/-- Modelled from the spec: `DG.CollectionClient.createCase` (not in the
excerpted source).  Creates a case with a fresh ID in the given collection,
linked to the parent named by `props.parent` (the new case is appended to
that parent's `children`), inserted into the collection's ordered case list
at `props.index` when given (else appended). -/
def collectionCreateCase (ctx : DataContext) (collId : Nat) (props : CaseProps) :
    DataContext × Nat :=
  let newId := ctx.nextCaseId
  let parentLink : Option Nat :=
    match props.parent with
    | some (ParentRef.byId p) => some p
    | some (ParentRef.byCase p) => some p
    | none => none
  let newCase : DGCase :=
    { id := newId, collectionId := collId, parent := parentLink }
  let ctx1 : DataContext :=
    { ctx with cases := ctx.cases ++ [newCase], nextCaseId := ctx.nextCaseId + 1 }
  let ctx2 := updateCollectionRec ctx1 collId (fun coll =>
    { coll with caseIds := insertAt coll.caseIds (props.index.getD coll.caseIds.length) newId })
  let ctx3 :=
    match parentLink with
    | some p => updateCaseRec ctx2 p (fun c => { c with children := c.children ++ [newId] })
    | none => ctx2
  (ctx3, newId)

/-- Modelled from the spec: `DG.CollectionClient.setCaseValuesFromArray`
(not in the excerpted source).  Assigns the given value vector to the case
positionally, matching the order of the attributes of the case's
collection. -/
def setCaseValuesFromArray (ctx : DataContext) (caseId : Nat)
    (vals : List DGValue) : DataContext :=
  match findCaseRecord ctx caseId with
  | none => ctx
  | some c =>
    match getCollectionByID ctx c.collectionId with
    | none => ctx
    | some coll =>
      updateCaseRec ctx caseId (fun cc => { cc with valuesMap := coll.attrIds.zip vals })

/-- State threaded through `doCreateCases`' per-values-array loop. -/
structure CreateState where
  ctx : DataContext
  caseIDs : List Nat := []
  success : Bool := false

/-- Source `createOneCase` of `doCreateCases`: create the case, assign the
parent-values-prefixed value vector, record the new ID. -/
def createOneCase (collId : Nat) (props : CaseProps)
    (parentValues : List DGValue) (st : CreateState) (vals : List DGValue) :
    CreateState :=
  let created := collectionCreateCase st.ctx collId props
  let ctx2 := setCaseValuesFromArray created.1 created.2 (parentValues ++ vals)
  { ctx := ctx2, caseIDs := st.caseIDs ++ [created.2], success := true }

/-- The tail of `doCreateCases`: when the collection resolved and the
parent reference is valid, create one case per values array
(`iChange.values || [[]]`), prefixing the parent values, and report the
created IDs (`caseID` is the first for single-case convenience); otherwise
leave the context untouched and report failure with no case IDs. -/
def doCreateCasesCore (ctx : DataContext) (coll : Option Collection)
    (props : CaseProps) (parentValues : List DGValue) (parentIsValid : Bool)
    (valuesOpt : Option (List (List DGValue))) : DataContext × ChangeResult :=
  match coll, parentIsValid with
  | some c, true =>
    let valuesArrays := valuesOpt.getD [[]]
    let st := valuesArrays.foldl (createOneCase c.id props parentValues)
      { ctx := ctx, caseIDs := [], success := false }
    (st.ctx, { success := st.success, caseIDs := st.caseIDs, caseID := st.caseIDs.head? })
  | _, _ => (ctx, { success := false, caseIDs := [], caseID := none })

/-- Source `doCreateCases`: resolves the target collection (default: the child
collection), validates the parent reference unless it is an object
(`typeof iChange.properties.parent !== 'object'`), computes the parent's
value vector in the order of the parent collection's attribute IDs, and
creates one case per values array, prefixing the parent values. -/
def doCreateCases (ctx : DataContext) (collOpt : Option Nat) (props : CaseProps)
    (valuesOpt : Option (List (List DGValue))) : DataContext × ChangeResult :=
  let collId : Option Nat :=
    match collOpt with
    | some c => some c
    | none => (childCollection ctx).map (fun coll => coll.id)
  let coll := collId.bind (getCollectionByID ctx)
  let isObjParent : Bool :=
    match props.parent with
    | some (ParentRef.byCase _) => true
    | _ => false
  let parentKey : Option Nat :=
    match props.parent with
    | some (ParentRef.byId p) => some p
    | _ => none
  let parentIsValid : Bool :=
    if isObjParent then true else validateParent ctx coll parentKey
  let parentCase : Option DGCase :=
    if (match parentKey with | some p => p != 0 | none => false) && parentIsValid then
      parentKey.bind (getCaseByID ctx)
    else none
  let parentValues : List DGValue :=
    match parentCase with
    | some pc =>
      match getCollectionByID ctx pc.collectionId with
      | some pcoll => pcoll.attrIds.map (fun aid => caseGetValue pc aid)
      | none => []
    | none => []
  doCreateCasesCore ctx coll props parentValues parentIsValid valuesOpt

/-- The per-case "effective change" test of `doSelectCases`' visit functions,
evaluated against the pre-invocation selection state: for selection,
`tSelection && (!tSelection.contains(iCase) || tSelection.length() > 1)`;
for deselection, `tSelection && tSelection.contains(iCase)`. -/
def selectCond (ctx : DataContext) (select : Bool) (collId caseId : Nat) : Bool :=
  match getCollectionByID ctx collId with
  | some coll =>
    if select then !(coll.selection.contains caseId) || decide (coll.selection.length > 1)
    else coll.selection.contains caseId
  | none => false

/-- Accumulator of `selectCaseAndChildren` / `deselectCaseAndChildren`:
the per-collection selection map flattened to visit-ordered
(collection ID, case ID) pairs, and the `isSelectionChanged` flag. -/
structure VisitOut where
  visited : List (Nat × Nat) := []
  flag : Bool := false
deriving DecidableEq, Repr

/-- Source `selectCaseAndChildren` / `deselectCaseAndChildren`: recursively visits
each case and its children, accumulating the visited (collection, case)
pairs and or-ing the `isSelectionChanged` flag, all against the original
selection state (the source only mutates selections after the traversal).
A case without a resolvable collection (no cases controller) is skipped
along with its subtree.  `fuel` bounds the recursion (it decreases on each
step); any sufficiently large value is exact for the acyclic hierarchies
the source assumes. -/
def visitCases (ctx : DataContext) (select : Bool) :
    Nat → VisitOut → List Nat → VisitOut
  | _, acc, [] => acc
  | 0, acc, _ :: _ => acc
  | fuel + 1, acc, caseId :: rest =>
    let acc' :=
      match getCaseByID ctx caseId with
      | none => acc
      | some c =>
        match getCollectionByID ctx c.collectionId with
        | none => acc
        | some coll =>
          let acc1 : VisitOut :=
            { visited := acc.visited ++ [(coll.id, caseId)],
              flag := acc.flag || selectCond ctx select coll.id caseId }
          visitCases ctx select fuel acc1 c.children
    visitCases ctx select fuel acc' rest

/-- The per-collection case group of the selection map
(`tCollectionSelectionMap`): the visited cases of one collection,
in visit order. -/
def groupCases (visited : List (Nat × Nat)) (collId : Nat) : List Nat :=
  visited.filterMap (fun p => if p.1 == collId then some p.2 else none)

/-- Modelled from the spec: `selectObjects(cases, extend)` of the cases
controller (not in the excerpted source) — with `extend` the cases are added
to the selection set, without it the selection set is replaced by the given
cases; the selection is kept duplicate-free (it is a set). -/
def selectionInsertAll (base add : List Nat) : List Nat :=
  add.foldl (fun s a => if s.contains a then s else s ++ [a]) base

/-- The case list a `selectCases` change applies to
(`iChange.cases || tController`): the named cases, else all cases of the
resolved collection (the named one or the child collection), else none. -/
def selectBaseCases (ctx : DataContext) (collOpt : Option Nat)
    (casesOpt : Option (List Nat)) : List Nat :=
  let tCollId : Option Nat :=
    match collOpt with
    | some c => some c
    | none => (childCollection ctx).map (fun coll => coll.id)
  match casesOpt with
  | some cs => cs
  | none =>
    ((tCollId.bind (getCollectionByID ctx)).map (fun coll => coll.caseIds)).getD []

/-- Source `doSelectCases`: resolves the target collection and case list, runs the
recursive visit, then applies selection per owning collection — the first
touch of a collection respects the caller's extend flag (here: each grouped
collection is touched exactly once, the cleanup sweep always extends) — and
finally, when the selection changed, clears every untouched, not-extended
collection and bumps `selectionChangeCount`.  Always reports success. -/
def doSelectCases (ctx : DataContext) (collOpt : Option Nat)
    (casesOpt : Option (List Nat)) (select extendSel : Bool) :
    DataContext × ChangeResult :=
  let out := visitCases ctx select ((ctx.cases.length + 1) * (ctx.cases.length + 1)) {}
    (selectBaseCases ctx collOpt casesOpt)
  let touched := out.visited.map Prod.fst
  let applied := ctx.collections.map (fun coll =>
    if touched.contains coll.id then
      let gcases := groupCases out.visited coll.id
      if select then
        { coll with selection :=
            if extendSel then selectionInsertAll coll.selection gcases
            else selectionInsertAll [] gcases }
      else
        { coll with selection := coll.selection.filter (fun x => !(gcases.contains x)) }
    else coll)
  let cleaned :=
    if out.flag then
      applied.map (fun coll =>
        if coll.id != 0 && !(touched.contains coll.id) && !extendSel then
          { coll with selection := [] }
        else coll)
    else applied
  let newCount := ctx.selectionChangeCount + (if out.flag then 1 else 0)
  ({ ctx with collections := cleaned, selectionChangeCount := newCount },
   { success := true })

/-- One entry of `doDeleteCases`' `deletedCases` undo data: the deleted
case's ID, its collection, its parent reference (`oldCase.parent`, a case
object reference modelled by the parent's ID), its values map (captured
separately because `destroy` drops it), and its original index position in
the collection's ordered case list. -/
structure DeletedCaseInfo where
  oldCaseId : Nat
  oldCollectionId : Nat
  oldParent : Option Nat
  values : List (Nat × DGValue)
  index : Option Nat
deriving DecidableEq, Repr

/-- State threaded through `deleteCaseAndChildren`: the mutated context,
`iChange.ids`, and the captured `deletedCases` undo data (in push order:
descendants before their ancestor). -/
structure DelState where
  ctx : DataContext
  ids : List Nat := []
  deleted : List DeletedCaseInfo := []
deriving Repr

/-- Modelled from the spec: `DG.CollectionClient.deleteCase` (not in the
excerpted source).  Marks the case destroyed, removes it from its
collection's ordered case list, and detaches it from its parent's
`children` (cascade deletion leaves no dangling child references). -/
def collectionDeleteCase (ctx : DataContext) (c : DGCase) : DataContext :=
  let ctx1 := updateCaseRec ctx c.id (fun cc => { cc with isDestroyed := true })
  let ctx2 := updateCollectionRec ctx1 c.collectionId (fun coll =>
    { coll with caseIds := coll.caseIds.filter (fun i => i != c.id) })
  match c.parent with
  | some p => updateCaseRec ctx2 p (fun pc =>
      { pc with children := pc.children.filter (fun i => i != c.id) })
  | none => ctx2

/-- The tail of one `deleteCaseAndChildren` step, after the recursive
deletion of the children has produced `st1`: record the ID, capture the
undo data (the values map, and the index position still held at this
moment), and remove the case from its collection. -/
def delFinish (caseId : Nat) (c : DGCase) (st1 : DelState) : DelState :=
  let index :=
    (getCollectionByID st1.ctx c.collectionId).map
      (fun coll => coll.caseIds.indexOf caseId)
  let info : DeletedCaseInfo :=
    { oldCaseId := caseId, oldCollectionId := c.collectionId,
      oldParent := c.parent, values := c.valuesMap, index := index }
  { ctx := collectionDeleteCase st1.ctx c,
    ids := st1.ids ++ [caseId], deleted := st1.deleted ++ [info] }

/-- Source `deleteCaseAndChildren` lifted to a work list: a case already marked
destroyed is skipped (this happens when an ancestor and its descendant are
both in the delete list); otherwise its children are deleted first, in
reverse order, then its ID is pushed onto `iChange.ids`, its undo data is
captured, and the case is removed from its collection.  `fuel` bounds the
recursion exactly as in `visitCases`. -/
def delRec : Nat → DelState → List Nat → DelState
  | _, st, [] => st
  | 0, st, _ :: _ => st
  | fuel + 1, st, caseId :: rest =>
    let st' :=
      match findCaseRecord st.ctx caseId with
      | none => st
      | some c =>
        if c.isDestroyed then st
        else delFinish caseId c (delRec fuel st c.children.reverse)
    delRec fuel st' rest

/-- The `execute` closure of the `doDeleteCases` command: delete each listed
case together with its descendants, returning the mutated context, the
deleted IDs, and the captured undo data. -/
def deleteCasesExecute (ctx : DataContext) (caseIds : List Nat) : DelState :=
  delRec ((ctx.cases.length + 1) * (ctx.cases.length + 1)) { ctx := ctx } caseIds

/-- Insertion into a key-ascending association list, modelling the ascending
numeric-key iteration order of a JS object such as `_valuesMap`. -/
def insertByKey (p : Nat × DGValue) : List (Nat × DGValue) → List (Nat × DGValue)
  | [] => [p]
  | q :: rest => if p.1 ≤ q.1 then p :: q :: rest else q :: insertByKey p rest

/-- Sort an association list by ascending key (JS object iteration order
for integer-like keys). -/
def sortByKey (l : List (Nat × DGValue)) : List (Nat × DGValue) :=
  l.foldr insertByKey []

/-- Source `performChange`: if the caller marked the change complete, a logged
no-op reporting success; otherwise dispatch on the operation tag.
For `createCase` the single values array is wrapped
(`iChange.values = [iChange.values || []]`); `deleteCases` executes the
delete command immediately and reports success; unmodelled operations
(`other`) leave the state alone, like the source's default branch they
return an unsuccessful result and never touch the change log. -/
def performChange (ctx : DataContext) (ch : Change) : DataContext × ChangeResult :=
  if ch.isComplete then (ctx, { success := true })
  else
    match ch.op with
    | ChangeOp.createCase coll props vs =>
      doCreateCases ctx coll props (some [vs.getD []])
    | ChangeOp.createCases coll props vs =>
      doCreateCases ctx coll props vs
    | ChangeOp.selectCases coll cases select extendSel =>
      doSelectCases ctx coll cases select extendSel
    | ChangeOp.deleteCases caseIds =>
      ((deleteCasesExecute ctx caseIds).ctx, { success := true })
    | ChangeOp.other _ => (ctx, { success := false })

/-- Source `applyChange`: the single mutation entry point — perform the change,
append it (with its result) to the change log, and increment the change
counter. -/
def applyChange (ctx : DataContext) (ch : Change) : DataContext × ChangeResult :=
  let pr := performChange ctx ch
  let log := pr.1.changes ++ [{ change := ch, result := pr.2 }]
  ({ pr.1 with changes := log, changeCount := pr.1.changeCount + 1 }, pr.2)

/-- A sequence of `applyChange` calls. -/
def applyChanges (ctx : DataContext) (cs : List Change) : DataContext :=
  cs.foldl (fun c ch => (applyChange c ch).1) ctx

/-- One step of the `undo` closure of the `doDeleteCases` command: rebuild
the value array from the captured values map in ascending-key iteration
order, remap the parent reference through the old-case → new-case map
discovered so far, and re-create the case through the normal `applyChange`
path with its original index; the freshly created case is recorded in the
remap table under the old case. -/
def undoDeleteStep (st : DataContext × List (Nat × Nat)) (info : DeletedCaseInfo) :
    DataContext × List (Nat × Nat) :=
  let ctx := st.1
  let remap := st.2
  let values := (sortByKey info.values).map Prod.snd
  let parentRef : Option ParentRef :=
    info.oldParent.map (fun p =>
      match remap.lookup p with
      | some newId => ParentRef.byCase newId
      | none => ParentRef.byCase p)
  let ch : Change :=
    { op := ChangeOp.createCase (some info.oldCollectionId)
        { parent := parentRef, index := info.index } (some values) }
  let (ctx', result) := applyChange ctx ch
  let remap' :=
    match result.caseID with
    | some newId => remap ++ [(info.oldCaseId, newId)]
    | none => remap
  (ctx', remap')

/-- The `undo` closure of the `doDeleteCases` command: walk the captured
undo data backwards (ancestors before the descendants deleted under them),
re-creating each case. -/
def undoDeleteCases (ctx : DataContext) (deleted : List DeletedCaseInfo) :
    DataContext :=
  (deleted.reverse.foldl undoDeleteStep (ctx, [])).1

/-! ## Case-table row index (`DG.CaseTableDataManager`) -/

/-- The state of a `DG.CaseTableDataManager`: the data context and the
presented collection, the collapse markers held by the owning table model
(modelled from the spec as a set of collapsed case IDs — `DG.CaseTableModel`
is not in the excerpted source), the suspension flag, the cached row → case
map (cases identified by ID), and the deferred-refresh flag. -/
structure RowIndexState where
  context : DataContext
  collectionId : Nat
  collapsed : List Nat := []
  suspended : Bool := false
  rowCaseMap : List Nat := []
  refreshNeeded : Bool := false
deriving DecidableEq, Repr

/-- Modelled from the spec: `DG.CaseTableModel.isCollapsedNode` — whether
the table model marks the case collapsed. -/
def isCollapsedNode (m : RowIndexState) (caseId : Nat) : Bool :=
  m.collapsed.contains caseId

/-- Source `makeCollections` of `refresh`: the chain from the root collection down
to the presented collection, built by walking parent links upward and
reversing.  `fuel` bounds the walk; the number of collections suffices for
a well-formed linear chain. -/
def makeCollectionsChain (ctx : DataContext) : Nat → Nat → List Collection
  | 0, _ => []
  | fuel + 1, collId =>
    match getCollectionByID ctx collId with
    | none => []
    | some coll =>
      match coll.parentCollectionId with
      | some pcid => makeCollectionsChain ctx fuel pcid ++ [coll]
      | none => [coll]

/-- Source `visit` of `refresh`, per node: with no levels remaining the case is at
the presented collection's level and is emitted as one row; at an
intermediate level a collapsed case is emitted as a single row standing in
for its subtree, otherwise its children are visited one level down. -/
def visitNode (m : RowIndexState) : Nat → Nat → List Nat
  | 0, caseId => [caseId]
  | level + 1, caseId =>
    if isCollapsedNode m caseId then [caseId]
    else
      match findCaseRecord m.context caseId with
      | some c => c.children.flatMap (visitNode m level)
      | none => []

/-- JS strict inequality between an array value and a number value
(`rowCaseIndex !== beforeCount` in `refresh`): values of different runtime
types are never strictly equal, so the comparison is always true. -/
def jsArrayNeqNumber (_rows : List Nat) (_beforeCount : Nat) : Bool := true

/-- Source `refresh`: when suspended, merely records that a refresh is needed;
otherwise rebuilds the row → case map by visiting the root collection's
cases down the collection chain, and fires `onRowCountChanged` (the
returned flag) according to the source's comparison of the new row array
against the previous length. -/
def refresh (m : RowIndexState) : RowIndexState × Bool :=
  if m.suspended then ({ m with refreshNeeded := true }, false)
  else
    let beforeCount := m.rowCaseMap.length
    let chain := makeCollectionsChain m.context m.context.collections.length m.collectionId
    let rows :=
      match chain.head? with
      | some root => root.caseIds.flatMap (visitNode m (chain.length - 1))
      | none => []
    let notified := jsArrayNeqNumber rows beforeCount
    ({ m with rowCaseMap := rows, refreshNeeded := false }, notified)

/-- Source `getLength`: the number of rows (a collapsed group counts as one row). -/
def getLength (m : RowIndexState) : Nat :=
  m.rowCaseMap.length

/-- Source `getItem`: the case occupying the given row (JS yields `undefined` out
of bounds). -/
def getItem (m : RowIndexState) (row : Nat) : Option Nat :=
  m.rowCaseMap.get? row

/-- Source `collapseGroup`: looks the case up in the store and marks it collapsed
(`model.collapseNode`, modelled from the spec as adding the marker). -/
def collapseGroup (m : RowIndexState) (caseId : Nat) : RowIndexState :=
  match getCaseByID m.context caseId with
  | some c =>
    { m with collapsed := if m.collapsed.contains c.id then m.collapsed else m.collapsed ++ [c.id] }
  | none => m

/-- Source `expandGroup`: looks the case up in the store and clears its collapse
marker (`model.expandNode`, modelled from the spec as removing it). -/
def expandGroup (m : RowIndexState) (caseId : Nat) : RowIndexState :=
  match getCaseByID m.context caseId with
  | some c => { m with collapsed := m.collapsed.filter (fun i => i != c.id) }
  | none => m

/-! ## Derived observations used by the verification -/

/-- The selection set of a collection, observed through the collection
lookup. -/
def selectionOf (ctx : DataContext) (collId : Nat) : Option (List Nat) :=
  (getCollectionByID ctx collId).map (fun coll => coll.selection)

/-- The (collection, case) pairs a case-list traversal visits, in visit
order: each listed case followed recursively by its descendants, skipping
cases without a resolvable collection.  This is the accumulator-free
description of `visitCases`' traversal. -/
def visitList (ctx : DataContext) : Nat → List Nat → List (Nat × Nat)
  | _, [] => []
  | 0, _ :: _ => []
  | fuel + 1, caseId :: rest =>
    (match getCaseByID ctx caseId with
     | none => []
     | some c =>
       match getCollectionByID ctx c.collectionId with
       | none => []
       | some coll => (coll.id, caseId) :: visitList ctx fuel c.children)
    ++ visitList ctx fuel rest

/-- The (collection, case) pairs a `selectCases` invocation visits. -/
def visitedPairs (ctx : DataContext) (collOpt : Option Nat)
    (casesOpt : Option (List Nat)) : List (Nat × Nat) :=
  visitList ctx ((ctx.cases.length + 1) * (ctx.cases.length + 1))
    (selectBaseCases ctx collOpt casesOpt)

/-- The collections touched by a `selectCases` invocation (those receiving
an entry in the per-collection selection map). -/
def touchedCollections (ctx : DataContext) (collOpt : Option Nat)
    (casesOpt : Option (List Nat)) : List Nat :=
  (visitedPairs ctx collOpt casesOpt).map Prod.fst

/-- Whether a `selectCases` invocation registers a selection change
(`isSelectionChanged`): some visited case passes the per-case
effective-change test against the pre-invocation selection state. -/
def effectiveSelectionChange (ctx : DataContext) (collOpt : Option Nat)
    (casesOpt : Option (List Nat)) (select : Bool) : Bool :=
  (visitedPairs ctx collOpt casesOpt).any
    (fun p => selectCond ctx select p.1 p.2)

/-- A collection with its selection set replaced. -/
def setSelection (coll : Collection) (sel : List Nat) : Collection :=
  { coll with selection := sel }

/-- Whether a case record with the given ID is present and marked
destroyed. -/
def isDestroyedIn (ctx : DataContext) (caseId : Nat) : Bool :=
  match findCaseRecord ctx caseId with
  | some c => c.isDestroyed
  | none => false

/-! ## Concrete scenario states -/

/-- A two-level hierarchy: root collection 10 with the single parent case 1
whose children are the child-collection cases 2, 3, 4. -/
def rowCtx : DataContext :=
  { collections :=
      [ { id := 10, caseIds := [1] },
        { id := 20, parentCollectionId := some 10, caseIds := [2, 3, 4] } ],
    cases :=
      [ { id := 1, collectionId := 10, children := [2, 3, 4] },
        { id := 2, collectionId := 20, parent := some 1 },
        { id := 3, collectionId := 20, parent := some 1 },
        { id := 4, collectionId := 20, parent := some 1 } ],
    nextCaseId := 5 }

/-- The row index presenting the child collection of `rowCtx`. -/
def rowMgr : RowIndexState :=
  { context := rowCtx, collectionId := 20 }

/-- The row index after collapsing parent case 1 and refreshing. -/
def rowMgrCollapsed : RowIndexState :=
  (refresh (collapseGroup rowMgr 1)).1

/-- The row index after expanding parent case 1 again and refreshing. -/
def rowMgrExpanded : RowIndexState :=
  (refresh (expandGroup rowMgrCollapsed 1)).1

/-- The row index after one initial refresh (all three children visible). -/
def rowMgrOnce : RowIndexState :=
  (refresh rowMgr).1

/-- Two-collection chain for the selection scenarios: collection 1 with
cases 5 and 7, child collection 2 with case 6. -/
def selCtxAB : DataContext :=
  { collections :=
      [ { id := 1, caseIds := [5, 7] },
        { id := 2, parentCollectionId := some 1, caseIds := [6] } ],
    cases :=
      [ { id := 5, collectionId := 1 },
        { id := 7, collectionId := 1 },
        { id := 6, collectionId := 2 } ],
    nextCaseId := 8 }

/-- After one `selectCases` invocation (no extend) naming case 5 of
collection 1 and case 6 of collection 2 together. -/
def selAfterBoth : DataContext :=
  (doSelectCases selCtxAB none (some [5, 6]) true false).1

/-- After a second, separate non-extending invocation selecting the
not-yet-selected case 7 of collection 1. -/
def selAfterSecondEffective : DataContext :=
  (doSelectCases selAfterBoth none (some [7]) true false).1

/-- After a second, separate non-extending invocation re-selecting the
already-selected case 5 of collection 1 (a pure no-op). -/
def selAfterSecondNoop : DataContext :=
  (doSelectCases selAfterBoth none (some [5]) true false).1

/-- One collection whose selection holds two cases — re-selecting one of
them with extend flips no membership. -/
def selCtxTwo : DataContext :=
  { collections := [ { id := 7, caseIds := [1, 2], selection := [1, 2] } ],
    cases :=
      [ { id := 1, collectionId := 7 },
        { id := 2, collectionId := 7 } ],
    nextCaseId := 3 }

/-- One collection whose selection is exactly one case — re-selecting it is
a pure no-op. -/
def selCtxOne : DataContext :=
  { collections := [ { id := 7, caseIds := [1], selection := [1] } ],
    cases := [ { id := 1, collectionId := 7 } ],
    nextCaseId := 2 }

/-! ## Lemmas about the selection traversal -/

/-- The accumulating visit of `doSelectCases` computes exactly the pure
traversal `visitList` appended to its accumulator, and its
`isSelectionChanged` flag is exactly the disjunction of the per-case
effective-change test over the traversal. -/
theorem visitCases_spec (ctx : DataContext) (s : Bool) :
    ∀ (fuel : Nat) (cids : List Nat) (acc : VisitOut),
      visitCases ctx s fuel acc cids
        = { visited := acc.visited ++ visitList ctx fuel cids,
            flag := acc.flag
              || (visitList ctx fuel cids).any (fun p => selectCond ctx s p.1 p.2) } := by
  intro fuel
  induction fuel with
  | zero =>
    intro cids acc
    cases cids with
    | nil => simp [visitCases, visitList]
    | cons c rest => simp [visitCases, visitList]
  | succ f ih =>
    intro cids acc
    cases cids with
    | nil => simp [visitCases, visitList]
    | cons c rest =>
      show visitCases ctx s (f + 1) acc (c :: rest) = _
      cases hc : getCaseByID ctx c with
      | none =>
        simp only [visitCases, visitList, hc]
        rw [ih]
        simp
      | some cc =>
        cases hcoll : getCollectionByID ctx cc.collectionId with
        | none =>
          simp only [visitCases, visitList, hc, hcoll]
          rw [ih]
          simp
        | some coll =>
          simp only [visitCases, visitList, hc, hcoll]
          rw [ih, ih]
          simp [Bool.or_assoc]

/-! ## Lookup propagation lemmas -/

theorem find?_pred_stable {α : Type _} (f : α → α) (p : α → Bool)
    (hp : p ∘ f = p) (l : List α) :
    (l.map f).find? p = (l.find? p).map f := by
  rw [List.find?_map, hp]

theorem find?_snoc_of_none {α : Type _} (p : α → Bool) (l : List α) (x : α)
    (h : l.find? p = none) :
    (l ++ [x]).find? p = if p x then some x else none := by
  rw [List.find?_append, h]
  cases hx : p x <;> simp [List.find?_cons, hx]

theorem find?_none_mono {α : Type _} (p q : α → Bool) (l : List α)
    (himp : ∀ a, q a = true → p a = true) (h : l.find? p = none) :
    l.find? q = none := by
  rw [List.find?_eq_none] at h ⊢
  intro x hx hqx
  exact h x hx (himp x hqx)

theorem findCaseRecord_updateCollectionRec (ctx : DataContext) (collId : Nat)
    (f : Collection → Collection) (target : Nat) :
    findCaseRecord (updateCollectionRec ctx collId f) target
      = findCaseRecord ctx target := rfl

theorem getCaseByID_updateCollectionRec (ctx : DataContext) (collId : Nat)
    (f : Collection → Collection) (target : Nat) :
    getCaseByID (updateCollectionRec ctx collId f) target
      = getCaseByID ctx target := rfl

theorem getCollectionByID_updateCaseRec (ctx : DataContext) (caseId : Nat)
    (f : DGCase → DGCase) (target : Nat) :
    getCollectionByID (updateCaseRec ctx caseId f) target
      = getCollectionByID ctx target := rfl

theorem findCaseRecord_updateCaseRec (ctx : DataContext) (cid : Nat)
    (f : DGCase → DGCase) (hid : ∀ c, (f c).id = c.id) (target : Nat) :
    findCaseRecord (updateCaseRec ctx cid f) target
      = (findCaseRecord ctx target).map (fun c => if c.id == cid then f c else c) := by
  refine find?_pred_stable _ _ ?_ _
  funext c
  by_cases h : (c.id == cid) = true
  · simp [Function.comp, h, hid c]
  · simp [Function.comp, h]

theorem getCaseByID_updateCaseRec (ctx : DataContext) (cid : Nat)
    (f : DGCase → DGCase) (hid : ∀ c, (f c).id = c.id)
    (hdes : ∀ c, (f c).isDestroyed = c.isDestroyed) (target : Nat) :
    getCaseByID (updateCaseRec ctx cid f) target
      = (getCaseByID ctx target).map (fun c => if c.id == cid then f c else c) := by
  refine find?_pred_stable _ _ ?_ _
  funext c
  by_cases h : (c.id == cid) = true
  · simp [Function.comp, h, hid c, hdes c]
  · simp [Function.comp, h]

theorem getCollectionByID_updateCollectionRec (ctx : DataContext) (collId : Nat)
    (f : Collection → Collection) (hid : ∀ c, (f c).id = c.id) (target : Nat) :
    getCollectionByID (updateCollectionRec ctx collId f) target
      = (getCollectionByID ctx target).map
          (fun c => if c.id == collId then f c else c) := by
  refine find?_pred_stable _ _ ?_ _
  funext c
  by_cases h : (c.id == collId) = true
  · simp [Function.comp, h, hid c]
  · simp [Function.comp, h]

theorem findCaseRecord_withCases (ctx : DataContext) (cs : List DGCase) (nid t : Nat) :
    findCaseRecord { ctx with cases := cs, nextCaseId := nid } t
      = cs.find? (fun c => c.id == t) := rfl

theorem getCaseByID_withCases (ctx : DataContext) (cs : List DGCase) (nid t : Nat) :
    getCaseByID { ctx with cases := cs, nextCaseId := nid } t
      = cs.find? (fun c => c.id == t && !c.isDestroyed) := rfl

theorem getCollectionByID_withCases (ctx : DataContext) (cs : List DGCase) (nid t : Nat) :
    getCollectionByID { ctx with cases := cs, nextCaseId := nid } t
      = getCollectionByID ctx t := rfl

/-! ## The operation handlers never touch the change log or its counter -/

theorem collectionCreateCase_log (ctx : DataContext) (collId : Nat)
    (props : CaseProps) :
    (collectionCreateCase ctx collId props).1.changes = ctx.changes
    ∧ (collectionCreateCase ctx collId props).1.changeCount = ctx.changeCount := by
  obtain ⟨pp, pi⟩ := props
  cases pp with
  | none => exact ⟨rfl, rfl⟩
  | some pr => cases pr <;> exact ⟨rfl, rfl⟩

theorem setCaseValuesFromArray_log (ctx : DataContext) (caseId : Nat)
    (vals : List DGValue) :
    (setCaseValuesFromArray ctx caseId vals).changes = ctx.changes
    ∧ (setCaseValuesFromArray ctx caseId vals).changeCount = ctx.changeCount := by
  refine ⟨?_, ?_⟩
  · unfold setCaseValuesFromArray
    split
    · rfl
    · split <;> rfl
  · unfold setCaseValuesFromArray
    split
    · rfl
    · split <;> rfl

theorem createOneCase_log (collId : Nat) (props : CaseProps)
    (parentValues : List DGValue) (st : CreateState) (vals : List DGValue) :
    (createOneCase collId props parentValues st vals).ctx.changes = st.ctx.changes
    ∧ (createOneCase collId props parentValues st vals).ctx.changeCount
      = st.ctx.changeCount := by
  refine ⟨?_, ?_⟩
  · exact (setCaseValuesFromArray_log _ _ _).1.trans
      (collectionCreateCase_log st.ctx collId props).1
  · exact (setCaseValuesFromArray_log _ _ _).2.trans
      (collectionCreateCase_log st.ctx collId props).2

theorem createFold_log (collId : Nat) (props : CaseProps)
    (parentValues : List DGValue) :
    ∀ (vas : List (List DGValue)) (st : CreateState),
      (vas.foldl (createOneCase collId props parentValues) st).ctx.changes
        = st.ctx.changes
      ∧ (vas.foldl (createOneCase collId props parentValues) st).ctx.changeCount
        = st.ctx.changeCount := by
  intro vas
  induction vas with
  | nil => intro st; exact ⟨rfl, rfl⟩
  | cons v rest ih =>
    intro st
    simp only [List.foldl_cons]
    refine ⟨?_, ?_⟩
    · exact (ih _).1.trans (createOneCase_log collId props parentValues st v).1
    · exact (ih _).2.trans (createOneCase_log collId props parentValues st v).2

theorem doCreateCases_log (ctx : DataContext) (collOpt : Option Nat)
    (props : CaseProps) (valuesOpt : Option (List (List DGValue))) :
    (doCreateCases ctx collOpt props valuesOpt).1.changes = ctx.changes
    ∧ (doCreateCases ctx collOpt props valuesOpt).1.changeCount
      = ctx.changeCount := by
  have core : ∀ (coll : Option Collection) (pv : List DGValue) (pok : Bool),
      (doCreateCasesCore ctx coll props pv pok valuesOpt).1.changes = ctx.changes
      ∧ (doCreateCasesCore ctx coll props pv pok valuesOpt).1.changeCount
        = ctx.changeCount := by
    intro coll pv pok
    cases coll with
    | none => exact ⟨rfl, rfl⟩
    | some c =>
      cases pok with
      | false => exact ⟨rfl, rfl⟩
      | true =>
        exact ⟨(createFold_log _ _ _ _ _).1, (createFold_log _ _ _ _ _).2⟩
  exact core _ _ _

theorem collectionDeleteCase_log (ctx : DataContext) (c : DGCase) :
    (collectionDeleteCase ctx c).changes = ctx.changes
    ∧ (collectionDeleteCase ctx c).changeCount = ctx.changeCount := by
  unfold collectionDeleteCase
  cases c.parent with
  | none => exact ⟨rfl, rfl⟩
  | some p => exact ⟨rfl, rfl⟩

theorem delFinish_log (caseId : Nat) (c : DGCase) (st1 : DelState) :
    (delFinish caseId c st1).ctx.changes = st1.ctx.changes
    ∧ (delFinish caseId c st1).ctx.changeCount = st1.ctx.changeCount :=
  ⟨(collectionDeleteCase_log st1.ctx c).1, (collectionDeleteCase_log st1.ctx c).2⟩

theorem delRec_log :
    ∀ (fuel : Nat) (cids : List Nat) (st : DelState),
      (delRec fuel st cids).ctx.changes = st.ctx.changes
      ∧ (delRec fuel st cids).ctx.changeCount = st.ctx.changeCount := by
  intro fuel
  induction fuel with
  | zero =>
    intro cids st
    cases cids with
    | nil => exact ⟨rfl, rfl⟩
    | cons c rest => exact ⟨rfl, rfl⟩
  | succ f ih =>
    intro cids st
    cases cids with
    | nil => exact ⟨rfl, rfl⟩
    | cons c rest =>
      simp only [delRec]
      cases h : findCaseRecord st.ctx c with
      | none => simpa only [h] using ih rest st
      | some cc =>
        simp only [h]
        cases hd : cc.isDestroyed with
        | true => simpa only [if_true] using ih rest st
        | false =>
          simp only [Bool.false_eq_true, if_false]
          refine ⟨?_, ?_⟩
          · exact (ih rest _).1.trans
              ((delFinish_log c cc _).1.trans (ih cc.children.reverse st).1)
          · exact (ih rest _).2.trans
              ((delFinish_log c cc _).2.trans (ih cc.children.reverse st).2)

theorem performChange_log (ctx : DataContext) (ch : Change) :
    (performChange ctx ch).1.changes = ctx.changes
    ∧ (performChange ctx ch).1.changeCount = ctx.changeCount := by
  obtain ⟨op, ic⟩ := ch
  cases ic with
  | true => exact ⟨rfl, rfl⟩
  | false =>
    cases op with
    | createCase coll props vs => exact doCreateCases_log ctx coll props _
    | createCases coll props vs => exact doCreateCases_log ctx coll props vs
    | selectCases coll cases select extendSel => exact ⟨rfl, rfl⟩
    | deleteCases cids =>
      exact ⟨(delRec_log _ cids _).1, (delRec_log _ cids _).2⟩
    | other name => exact ⟨rfl, rfl⟩

theorem applyChange_changeCount (ctx : DataContext) (ch : Change) :
    (applyChange ctx ch).1.changeCount = ctx.changeCount + 1 :=
  congrArg (· + 1) (performChange_log ctx ch).2

theorem applyChange_changesLength (ctx : DataContext) (ch : Change) :
    (applyChange ctx ch).1.changes.length = ctx.changes.length + 1 := by
  show ((performChange ctx ch).1.changes ++ [_]).length = ctx.changes.length + 1
  rw [List.length_append, (performChange_log ctx ch).1]
  rfl

theorem applyChanges_log_aux :
    ∀ (cs : List Change) (ctx : DataContext),
      (applyChanges ctx cs).changeCount = ctx.changeCount + cs.length
      ∧ (ctx.changes.length = ctx.changeCount →
          (applyChanges ctx cs).changes.length = (applyChanges ctx cs).changeCount) := by
  intro cs
  induction cs with
  | nil => intro ctx; exact ⟨rfl, fun h => h⟩
  | cons c rest ih =>
    intro ctx
    simp only [applyChanges, List.foldl_cons]
    refine ⟨?_, ?_⟩
    · have h1 := (ih (applyChange ctx c).1).1
      simp only [applyChanges] at h1
      rw [h1, applyChange_changeCount ctx c, List.length_cons]
      omega
    · intro hlen
      have h2 := (ih (applyChange ctx c).1).2
      simp only [applyChanges] at h2
      refine h2 ?_
      rw [applyChange_changesLength ctx c, applyChange_changeCount ctx c, hlen]

/-- Parent/child collection pair for the case-creation claims: collection 1
(root, attribute 11) holds case 5; collection 2 (child, attributes 21 and
22, the first inherited) is empty. -/
def c2Ctx : DataContext :=
  { collections := [ { id := 1, caseIds := [5] }, { id := 2, parentCollectionId := some 1 } ],
    cases := [ { id := 5, collectionId := 1 } ],
    nextCaseId := 6 }

/-- Root collection of the C3 witness context. -/
def c3CollA : Collection := { id := 1, attrIds := [11], caseIds := [5] }

/-- Child collection of the C3 witness context (attribute 21 is the
inherited copy of 11, 22 is its own). -/
def c3CollB : Collection := { id := 2, parentCollectionId := some 1, attrIds := [21, 22] }

/-- The parent case of the C3 witness context. -/
def c3CaseP : DGCase := { id := 5, collectionId := 1, valuesMap := [(11, DGValue.num 7)] }

/-- The C3 witness context. -/
def c3Ctx : DataContext :=
  { collections := [c3CollA, c3CollB], cases := [c3CaseP], nextCaseId := 100 }

/-! ## Deletion: the recursive delete destroys each case at most once -/
theorem findCaseRecord_collectionDeleteCase_isSome (ctx : DataContext) (c : DGCase)
    (i : Nat) :
    (findCaseRecord (collectionDeleteCase ctx c) i).isSome
      = (findCaseRecord ctx i).isSome := by
  unfold collectionDeleteCase
  cases c.parent with
  | none =>
    rw [findCaseRecord_updateCollectionRec,
        findCaseRecord_updateCaseRec _ c.id (fun cc => { cc with isDestroyed := true })
          (fun x => rfl) i]
    cases findCaseRecord ctx i <;> rfl
  | some p =>
    dsimp only
    rw [findCaseRecord_updateCaseRec _ p
          (fun pc => { pc with children := pc.children.filter (fun j => j != c.id) })
          (fun x => rfl) i,
        findCaseRecord_updateCollectionRec,
        findCaseRecord_updateCaseRec _ c.id (fun cc => { cc with isDestroyed := true })
          (fun x => rfl) i]
    cases findCaseRecord ctx i <;> rfl

theorem isDestroyedIn_collectionDeleteCase (ctx : DataContext) (c : DGCase) (i : Nat) :
    isDestroyedIn (collectionDeleteCase ctx c) i
      = (isDestroyedIn ctx i || (i == c.id && (findCaseRecord ctx i).isSome)) := by
  unfold isDestroyedIn collectionDeleteCase
  cases c.parent with
  | none =>
    rw [findCaseRecord_updateCollectionRec,
        findCaseRecord_updateCaseRec _ c.id (fun cc => { cc with isDestroyed := true })
          (fun x => rfl) i]
    cases hr : findCaseRecord ctx i with
    | none => simp
    | some r =>
      have hri : r.id = i := by simpa using List.find?_some hr
      by_cases hic : i = c.id
      · simp [hri, hic, Option.map_some']
      · simp [hri, hic, Option.map_some']
  | some p =>
    dsimp only
    rw [findCaseRecord_updateCaseRec _ p
          (fun pc => { pc with children := pc.children.filter (fun j => j != c.id) })
          (fun x => rfl) i,
        findCaseRecord_updateCollectionRec,
        findCaseRecord_updateCaseRec _ c.id (fun cc => { cc with isDestroyed := true })
          (fun x => rfl) i]
    cases hr : findCaseRecord ctx i with
    | none => simp
    | some r =>
      have hri : r.id = i := by simpa using List.find?_some hr
      by_cases hic : i = c.id
      · by_cases hip : i = p
        · simp [hri, hic, hip, Option.map_some']
          try split <;> simp [*]
        · simp [hri, hic, hip, Option.map_some']
          try split <;> simp [*]
      · by_cases hip : i = p
        · simp [hri, hic, hip, Option.map_some']
          try split <;> simp [*]
        · simp [hri, hic, hip, Option.map_some']
          try split <;> simp [*]

theorem structural_map_cases (rank : Nat → Nat) (l : List DGCase) (g : DGCase → DGCase)
    (hg : ∀ x, (g x).id = x.id ∧ (g x).children ⊆ x.children)
    (h : ∀ x ∈ l, ∀ ch ∈ x.children, rank ch < rank x.id) :
    ∀ x ∈ l.map g, ∀ ch ∈ x.children, rank ch < rank x.id := by
  intro x hx ch hch
  rcases List.mem_map.mp hx with ⟨y, hy, rfl⟩
  have h2 := h y hy ch ((hg y).2 hch)
  rw [(hg y).1]
  exact h2

theorem structural_collectionDeleteCase (rank : Nat → Nat) (ctx : DataContext)
    (c : DGCase)
    (h : ∀ x ∈ ctx.cases, ∀ ch ∈ x.children, rank ch < rank x.id) :
    ∀ x ∈ (collectionDeleteCase ctx c).cases, ∀ ch ∈ x.children, rank ch < rank x.id := by
  unfold collectionDeleteCase
  cases c.parent with
  | none =>
    exact structural_map_cases rank ctx.cases _
      (fun x => ⟨by split <;> rfl, by split <;> simp⟩) h
  | some p =>
    dsimp only [updateCaseRec, updateCollectionRec]
    refine structural_map_cases rank _ _
      (fun x => ⟨by split <;> rfl, by split <;> simp [List.filter_subset]⟩) ?_
    exact structural_map_cases rank ctx.cases _
      (fun x => ⟨by split <;> rfl, by split <;> simp⟩) h

/-- The invariant carried through `deleteCaseAndChildren`: the recorded IDs
are duplicate-free, each recorded ID is marked destroyed in the current
context, and the child graph is ranked (every child ranks strictly below
its parent — the acyclicity the source assumes). -/
def DelInv (rank : Nat → Nat) (st : DelState) : Prop :=
  st.ids.Nodup
  ∧ (∀ i ∈ st.ids, isDestroyedIn st.ctx i = true)
  ∧ (∀ c ∈ st.ctx.cases, ∀ ch ∈ c.children, rank ch < rank c.id)

theorem nodup_snoc {α : Type _} (l : List α) (a : α) (h : l.Nodup) (ha : a ∉ l) :
    (l ++ [a]).Nodup := by
  simp [List.nodup_append, h, ha]

theorem delRec_master (rank : Nat → Nat) :
    ∀ (fuel : Nat) (cids : List Nat) (st : DelState) (B : Nat),
      (∀ i ∈ cids, rank i < B) → DelInv rank st →
      DelInv rank (delRec fuel st cids)
      ∧ (∀ i, isDestroyedIn st.ctx i = true
          → isDestroyedIn (delRec fuel st cids).ctx i = true)
      ∧ (∀ i ∈ (delRec fuel st cids).ids,
          i ∈ st.ids ∨ isDestroyedIn st.ctx i = false)
      ∧ (∀ i, B ≤ rank i
          → isDestroyedIn (delRec fuel st cids).ctx i = isDestroyedIn st.ctx i)
      ∧ (∀ i, (findCaseRecord (delRec fuel st cids).ctx i).isSome
          = (findCaseRecord st.ctx i).isSome) := by
  intro fuel
  induction fuel with
  | zero =>
    intro cids st B hB hI
    cases cids with
    | nil => exact ⟨hI, fun i h => h, fun i hi => Or.inl hi, fun i _ => rfl, fun i => rfl⟩
    | cons c rest => exact ⟨hI, fun i h => h, fun i hi => Or.inl hi, fun i _ => rfl, fun i => rfl⟩
  | succ f ih =>
    intro cids st B hB hI
    cases cids with
    | nil => exact ⟨hI, fun i h => h, fun i hi => Or.inl hi, fun i _ => rfl, fun i => rfl⟩
    | cons caseId rest =>
      simp only [delRec]
      cases hf : findCaseRecord st.ctx caseId with
      | none =>
        exact ih rest st B (fun i hi => hB i (List.mem_cons_of_mem _ hi)) hI
      | some c =>
        dsimp only
        cases hd : c.isDestroyed with
        | true =>
          rw [if_pos rfl]
          exact ih rest st B (fun i hi => hB i (List.mem_cons_of_mem _ hi)) hI
        | false =>
          rw [if_neg Bool.false_ne_true]
          -- facts about the found case
          have hcid : c.id = caseId := by simpa using List.find?_some hf
          have hcmem : c ∈ st.ctx.cases := List.mem_of_find?_eq_some hf
          have halive : isDestroyedIn st.ctx caseId = false := by
            unfold isDestroyedIn
            rw [hf]
            exact hd
          have hchildB : ∀ i ∈ c.children.reverse, rank i < rank caseId := by
            intro i hi
            rw [← hcid]
            exact hI.2.2 c hcmem i (List.mem_reverse.mp hi)
          -- the recursive subtree deletion
          have hsub := ih c.children.reverse st (rank caseId) hchildB hI
          set st1 := delRec f st c.children.reverse with hst1
          -- caseId is still alive after the subtree deletion
          have halive1 : isDestroyedIn st1.ctx caseId = false := by
            rw [hsub.2.2.2.1 caseId (Nat.le_refl _), halive]
          -- caseId has not been recorded yet
          have hnotin : caseId ∉ st1.ids := by
            intro hmem
            have := hsub.1.2.1 caseId hmem
            rw [halive1] at this
            exact Bool.false_ne_true this
          -- the record for caseId is still present
          have hsome1 : (findCaseRecord st1.ctx caseId).isSome = true := by
            rw [hsub.2.2.2.2 caseId, hf]
            rfl
          -- the state after finishing this case
          have hfin : DelInv rank (delFinish caseId c st1)
              ∧ (∀ i, isDestroyedIn st1.ctx i = true
                  → isDestroyedIn (delFinish caseId c st1).ctx i = true)
              ∧ (∀ i ∈ (delFinish caseId c st1).ids,
                  i ∈ st1.ids ∨ i = caseId)
              ∧ (∀ i, i ≠ caseId
                  → isDestroyedIn (delFinish caseId c st1).ctx i = isDestroyedIn st1.ctx i)
              ∧ (∀ i, (findCaseRecord (delFinish caseId c st1).ctx i).isSome
                  = (findCaseRecord st1.ctx i).isSome) := by
            refine ⟨⟨?_, ?_, ?_⟩, ?_, ?_, ?_, ?_⟩
            · exact nodup_snoc _ _ hsub.1.1 hnotin
            · intro i hi
              rcases List.mem_append.mp hi with hi1 | hi2
              · show isDestroyedIn (collectionDeleteCase st1.ctx c) i = true
                rw [isDestroyedIn_collectionDeleteCase]
                simp [hsub.1.2.1 i hi1]
              · have : i = caseId := by simpa using hi2
                subst this
                show isDestroyedIn (collectionDeleteCase st1.ctx c) i = true
                rw [isDestroyedIn_collectionDeleteCase]
                simp [hcid, hsome1]
            · exact structural_collectionDeleteCase rank st1.ctx c hsub.1.2.2
            · intro i hi
              show isDestroyedIn (collectionDeleteCase st1.ctx c) i = true
              rw [isDestroyedIn_collectionDeleteCase]
              simp [hi]
            · intro i hi
              rcases List.mem_append.mp hi with hi1 | hi2
              · exact Or.inl hi1
              · exact Or.inr (by simpa using hi2)
            · intro i hi
              show isDestroyedIn (collectionDeleteCase st1.ctx c) i = _
              rw [isDestroyedIn_collectionDeleteCase]
              have : (i == c.id) = false := by
                rw [hcid]
                simpa using hi
              simp [this]
            · intro i
              exact findCaseRecord_collectionDeleteCase_isSome st1.ctx c i
          -- the tail of the work list
          have htail := ih rest (delFinish caseId c st1) B
            (fun i hi => hB i (List.mem_cons_of_mem _ hi)) hfin.1
          refine ⟨htail.1, ?_, ?_, ?_, ?_⟩
          · intro i hi
            exact htail.2.1 i (hfin.2.1 i (hsub.2.1 i hi))
          · intro i hi
            rcases htail.2.2.1 i hi with hin | hal
            · rcases hfin.2.2.1 i hin with hin1 | heq
              · rcases hsub.2.2.1 i hin1 with hin2 | hal2
                · exact Or.inl hin2
                · exact Or.inr hal2
              · subst heq
                exact Or.inr halive
            · -- alive at delFinish state implies alive at st
              by_cases hic : i = caseId
              · subst hic
                exact Or.inr halive
              · rw [hfin.2.2.2.1 i hic] at hal
                cases hal2 : isDestroyedIn st.ctx i with
                | false => exact Or.inr rfl
                | true =>
                  rw [hsub.2.1 i hal2] at hal
                  exact absurd hal (by simp)
          · intro i hBi
            have hneq : i ≠ caseId := by
              intro he
              subst he
              exact absurd (hB i (List.mem_cons_self _ _)) (Nat.not_lt.mpr hBi)
            rw [htail.2.2.2.1 i hBi, hfin.2.2.2.1 i hneq,
                hsub.2.2.2.1 i (Nat.le_of_lt (Nat.lt_of_lt_of_le (hB caseId (List.mem_cons_self _ _)) hBi))]
          · intro i
            rw [htail.2.2.2.2 i, hfin.2.2.2.2 i, hsub.2.2.2.2 i]

theorem rank_lt_bound (rank : Nat → Nat) :
    ∀ (l : List Nat), ∀ i ∈ l, rank i < (l.map rank).foldr Nat.max 0 + 1 := by
  intro l
  induction l with
  | nil => intro i hi; cases hi
  | cons a t ih =>
    intro i hi
    simp only [List.map_cons, List.foldr_cons]
    rcases List.mem_cons.mp hi with rfl | ht
    · have h1 : rank i ≤ Nat.max (rank i) ((t.map rank).foldr Nat.max 0) :=
        Nat.le_max_left _ _
      omega
    · have h2 := ih i ht
      have h3 : (t.map rank).foldr Nat.max 0
          ≤ Nat.max (rank a) ((t.map rank).foldr Nat.max 0) := Nat.le_max_right _ _
      omega

theorem delRec_deleted_parallel :
    ∀ (fuel : Nat) (cids : List Nat) (st : DelState),
      st.deleted.map (fun d => d.oldCaseId) = st.ids →
      (delRec fuel st cids).deleted.map (fun d => d.oldCaseId)
        = (delRec fuel st cids).ids := by
  intro fuel
  induction fuel with
  | zero =>
    intro cids st h
    cases cids with
    | nil => exact h
    | cons c rest => exact h
  | succ f ih =>
    intro cids st h
    cases cids with
    | nil => exact h
    | cons caseId rest =>
      simp only [delRec]
      cases hf : findCaseRecord st.ctx caseId with
      | none => exact ih rest st h
      | some c =>
        dsimp only
        cases hd : c.isDestroyed with
        | true =>
          rw [if_pos rfl]
          exact ih rest st h
        | false =>
          rw [if_neg Bool.false_ne_true]
          refine ih rest _ ?_
          show (delFinish caseId c (delRec f st c.children.reverse)).deleted.map _
            = (delFinish caseId c (delRec f st c.children.reverse)).ids
          unfold delFinish
          simp only [List.map_append]
          rw [ih c.children.reverse st h]
          rfl


/-! ## Claim theorems -/

/-- Claim C1: for any sequence of N `applyChange` calls with `isComplete`
unset on a live data context, `changeCount` increases by exactly N —
exactly 1 per call, never decremented — and afterwards the length of the
`changes` log equals `changeCount` (given that they agreed beforehand, as
they do from initialization on, both starting at 0). -/
theorem applyChange_changeCount_invariant (ctx : DataContext) (cs : List Change)
    (_hinc : ∀ c ∈ cs, c.isComplete = false)
    (hlen : ctx.changes.length = ctx.changeCount) :
    (applyChanges ctx cs).changeCount = ctx.changeCount + cs.length
    ∧ (∀ ch : Change, (applyChange ctx ch).1.changeCount = ctx.changeCount + 1)
    ∧ (applyChanges ctx cs).changes.length = (applyChanges ctx cs).changeCount :=
  ⟨(applyChanges_log_aux cs ctx).1,
   fun ch => applyChange_changeCount ctx ch,
   (applyChanges_log_aux cs ctx).2 hlen⟩

/-- Witness for C1 at a concrete input: a fresh data context and a
two-change sequence (an unknown operation and a selection). -/
theorem applyChange_changeCount_invariant_witness :
    (applyChanges {} [Change.mk (ChangeOp.other unknownOpName) false,
        Change.mk (ChangeOp.selectCases none none true false) false]).changeCount = 0 + 2
    ∧ (applyChange {} (Change.mk (ChangeOp.other unknownOpName) false)).1.changeCount = 0 + 1
    ∧ (applyChanges {} [Change.mk (ChangeOp.other unknownOpName) false,
        Change.mk (ChangeOp.selectCases none none true false) false]).changes.length
      = (applyChanges {} [Change.mk (ChangeOp.other unknownOpName) false,
          Change.mk (ChangeOp.selectCases none none true false) false]).changeCount :=
  have h := applyChange_changeCount_invariant {}
    [Change.mk (ChangeOp.other unknownOpName) false,
     Change.mk (ChangeOp.selectCases none none true false) false]
    (by decide) rfl
  ⟨h.1, h.2.1 (Change.mk (ChangeOp.other unknownOpName) false), h.2.2⟩

/-- Claim C2: a `createCases` change whose target collection has a parent
collection and whose parent-case ID does not resolve to an existing,
non-destroyed case yields `success: false` with an empty `caseIDs` list,
adds no case (the context is returned untouched), and is not fatal: the
change is still logged through `applyChange` (the log grows by one) and
processing continues normally. -/
theorem doCreateCases_invalid_parent (ctx : DataContext) (cid pid pc : Nat)
    (props : CaseProps) (valuesOpt : Option (List (List DGValue))) (coll : Collection)
    (hcoll : getCollectionByID ctx cid = some coll)
    (hpcoll : coll.parentCollectionId = some pc)
    (hpc : pc ≠ 0)
    (hparent : props.parent = some (ParentRef.byId pid))
    (hmissing : getCaseByID ctx pid = none) :
    doCreateCases ctx (some cid) props valuesOpt
      = (ctx, { success := false, caseIDs := [], caseID := none })
    ∧ (applyChange ctx
        (Change.mk (ChangeOp.createCases (some cid) props valuesOpt) false)).1.cases
      = ctx.cases
    ∧ (applyChange ctx
        (Change.mk (ChangeOp.createCases (some cid) props valuesOpt) false)).1.collections
      = ctx.collections
    ∧ (applyChange ctx
        (Change.mk (ChangeOp.createCases (some cid) props valuesOpt) false)).1.changes.length
      = ctx.changes.length + 1
    ∧ (applyChange ctx
        (Change.mk (ChangeOp.createCases (some cid) props valuesOpt) false)).2
      = { success := false, caseIDs := [], caseID := none } := by
  have hbeq : (pc == 0) = false := by simpa using hpc
  have hvalid : validateParent ctx (some coll) (some pid) = false := by
    simp only [validateParent, hpcoll, hbeq, hmissing]
    simp
  have hmain : doCreateCases ctx (some cid) props valuesOpt
      = (ctx, { success := false, caseIDs := [], caseID := none }) := by
    unfold doCreateCases
    simp only [hparent, Option.some_bind, hcoll, Bool.false_eq_true, if_false, hvalid,
      Bool.and_false]
    rfl
  have hperf : performChange ctx
      (Change.mk (ChangeOp.createCases (some cid) props valuesOpt) false)
      = (ctx, { success := false, caseIDs := [], caseID := none }) := hmain
  refine ⟨hmain, ?_, ?_, ?_, ?_⟩ <;> simp [applyChange, hperf]

/-- Witness for C2 at a concrete input: creating a case in the child
collection 2 with the dangling parent reference 999. -/
theorem doCreateCases_invalid_parent_witness :
    doCreateCases c2Ctx (some 2)
        (CaseProps.mk (some (ParentRef.byId 999)) none) (some [[DGValue.num 3]])
      = (c2Ctx, { success := false, caseIDs := [], caseID := none }) :=
  (doCreateCases_invalid_parent c2Ctx 2 999 1
    (CaseProps.mk (some (ParentRef.byId 999)) none) (some [[DGValue.num 3]])
    { id := 2, parentCollectionId := some 1 }
    rfl rfl (by decide) rfl rfl).1

/-- Claim C3: a case created with a valid parent-case ID is assigned the
value vector consisting of the parent case's values — read in the order of
the parent collection's attribute IDs — concatenated with the
caller-supplied child values (assigned positionally against the target
collection's attributes), and it is linked to that parent. -/
theorem doCreateCases_parent_values_prepended (ctx : DataContext) (cid pid : Nat)
    (vs : List DGValue) (props : CaseProps) (coll : Collection)
    (pcase : DGCase) (pcoll : Collection)
    (hcoll : getCollectionByID ctx cid = some coll)
    (hparent : props.parent = some (ParentRef.byId pid))
    (hpid : pid ≠ 0)
    (hpcase : getCaseByID ctx pid = some pcase)
    (hpcoll : getCollectionByID ctx pcase.collectionId = some pcoll)
    (hfresh : findCaseRecord ctx ctx.nextCaseId = none) :
    (getCaseByID (doCreateCases ctx (some cid) props (some [vs])).1 ctx.nextCaseId).map
        (fun c => c.valuesMap)
      = some (coll.attrIds.zip ((pcoll.attrIds.map (caseGetValue pcase)) ++ vs))
    ∧ (getCaseByID (doCreateCases ctx (some cid) props (some [vs])).1 ctx.nextCaseId).map
        (fun c => c.parent)
      = some (some pid)
    ∧ (doCreateCases ctx (some cid) props (some [vs])).2.caseIDs = [ctx.nextCaseId] := by
  have hpidne : pid ≠ ctx.nextCaseId := by
    intro he
    unfold findCaseRecord at hfresh
    rw [List.find?_eq_none] at hfresh
    have hmem := List.mem_of_find?_eq_some hpcase
    have hp := List.find?_some hpcase
    have h3 : (pcase.id == pid) = true := by
      cases h2 : (pcase.id == pid) with
      | true => rfl
      | false => rw [h2] at hp; simp at hp
    have h4 : pcase.id = pid := by simpa using h3
    exact hfresh pcase hmem (by simp [h4, he])
  have hbeqpid : (pid != 0) = true := by simpa using hpid
  have hvalid : validateParent ctx (some coll) (some pid) = true := by
    unfold validateParent
    cases hpcolid : coll.parentCollectionId with
    | none => simp [hpcolid]
    | some x =>
      by_cases hx : (x == 0) = true
      · simp [hpcolid, hx]
      · simp only [Bool.not_eq_true] at hx
        simp [hpcolid, hx, hpcase]
  unfold doCreateCases
  simp only [hparent, Option.some_bind, hcoll, hvalid, hbeqpid, Bool.false_eq_true,
    if_false, Bool.and_true, if_true, hpcase, hpcoll]
  simp only [doCreateCasesCore, List.foldl, createOneCase, collectionCreateCase, hparent]
  have hcolid : coll.id = cid := by
    have hp := List.find?_some hcoll
    simpa using hp
  have hcoll2 : getCollectionByID ctx coll.id = some coll := by
    rw [hcolid]; exact hcoll
  have hnpid : (ctx.nextCaseId == pid) = false := by
    simpa using fun he => hpidne he.symm
  have hfreshlist : ctx.cases.find? (fun c => c.id == ctx.nextCaseId) = none := hfresh
  unfold setCaseValuesFromArray
  rw [findCaseRecord_updateCaseRec _ pid
        (fun c => { c with children := c.children ++ [ctx.nextCaseId] })
        (fun c => rfl) ctx.nextCaseId,
      findCaseRecord_updateCollectionRec, findCaseRecord_withCases,
      find?_snoc_of_none _ _ _ hfreshlist]
  simp only [beq_self_eq_true, if_true, Option.map_some', hnpid, Bool.false_eq_true,
    if_false]
  rw [getCollectionByID_updateCaseRec,
      getCollectionByID_updateCollectionRec _ coll.id
        (fun c => { c with caseIds := insertAt c.caseIds (props.index.getD c.caseIds.length) ctx.nextCaseId })
        (fun c => rfl) coll.id,
      getCollectionByID_withCases, hcoll2]
  simp only [Option.map_some', beq_self_eq_true, if_true]
  have hfresh2 : ctx.cases.find? (fun c => c.id == ctx.nextCaseId && !c.isDestroyed) = none :=
    find?_none_mono _ _ _ (fun a h => ((Bool.and_eq_true _ _).mp h).1) hfreshlist
  rw [getCaseByID_updateCaseRec _ ctx.nextCaseId
        (fun cc => { cc with valuesMap := coll.attrIds.zip (List.map (fun aid => caseGetValue pcase aid) pcoll.attrIds ++ vs) })
        (fun c => rfl) (fun c => rfl) ctx.nextCaseId,
      getCaseByID_updateCaseRec _ pid
        (fun c => { c with children := c.children ++ [ctx.nextCaseId] })
        (fun c => rfl) (fun c => rfl) ctx.nextCaseId,
      getCaseByID_updateCollectionRec, getCaseByID_withCases,
      find?_snoc_of_none _ _ _ hfresh2]
  simp only [beq_self_eq_true, Bool.not_false, Bool.and_true, if_true,
    Option.map_some', hnpid, Bool.false_eq_true, if_false]
  simp

/-- Witness for C3 at a concrete input: creating a case in child collection
2 under parent case 5 (whose sole value is 7) with one supplied value
yields the value map pairing the inherited attribute 21 with the parent's
value and attribute 22 with the supplied value. -/
theorem doCreateCases_parent_values_prepended_witness :
    (getCaseByID (doCreateCases c3Ctx (some 2)
          (CaseProps.mk (some (ParentRef.byId 5)) none)
          (some [[DGValue.str xText]])).1 c3Ctx.nextCaseId).map (fun c => c.valuesMap)
      = some [(21, DGValue.num 7), (22, DGValue.str xText)]
    ∧ (getCaseByID (doCreateCases c3Ctx (some 2)
          (CaseProps.mk (some (ParentRef.byId 5)) none)
          (some [[DGValue.str xText]])).1 c3Ctx.nextCaseId).map (fun c => c.parent)
      = some (some 5)
    ∧ (doCreateCases c3Ctx (some 2)
          (CaseProps.mk (some (ParentRef.byId 5)) none)
          (some [[DGValue.str xText]])).2.caseIDs = [c3Ctx.nextCaseId] :=
  have h := doCreateCases_parent_values_prepended c3Ctx 2 5 [DGValue.str xText]
    (CaseProps.mk (some (ParentRef.byId 5)) none) c3CollB c3CaseP c3CollA
    rfl rfl (by decide) rfl rfl rfl
  ⟨h.1, h.2.1, h.2.2⟩

/-- Claim C4 (amended): in a non-extending selection, every collection
touched by the invocation ends with exactly its visited cases (the first —
and only — per-collection application respects the caller's flag, and the
always-extending cleanup sweep never clears a touched collection), while an
untouched collection with a truthy ID is cleared exactly when the
invocation registers a selection change.  Consequently (scenario): one
invocation selecting case 5 in collection 1 and case 6 in collection 2
leaves both selections intact; a second, separate, net-effective invocation
on collection 1 alone clears collection 2's selection; a second invocation
that merely re-selects collection 1's already-selected case leaves
collection 2's selection intact. -/
theorem selectCases_extend_semantics :
    (∀ (ctx : DataContext) (collOpt : Option Nat) (casesOpt : Option (List Nat)),
      (doSelectCases ctx collOpt casesOpt true false).1.collections
        = ctx.collections.map (fun coll =>
            if (touchedCollections ctx collOpt casesOpt).contains coll.id then
              setSelection coll
                (selectionInsertAll []
                  (groupCases (visitedPairs ctx collOpt casesOpt) coll.id))
            else if effectiveSelectionChange ctx collOpt casesOpt true && (coll.id != 0) then
              setSelection coll []
            else coll))
    ∧ selectionOf selAfterBoth 1 = some [5]
    ∧ selectionOf selAfterBoth 2 = some [6]
    ∧ selectionOf selAfterSecondEffective 1 = some [7]
    ∧ selectionOf selAfterSecondEffective 2 = some []
    ∧ selectionOf selAfterSecondNoop 1 = some [5]
    ∧ selectionOf selAfterSecondNoop 2 = some [6] := by
  refine ⟨?_, by decide, by decide, by decide, by decide, by decide, by decide⟩
  intro ctx collOpt casesOpt
  show (doSelectCases ctx collOpt casesOpt true false).1.collections = _
  simp only [doSelectCases, visitCases_spec, touchedCollections, visitedPairs,
    effectiveSelectionChange, setSelection]
  simp only [Bool.false_or, List.nil_append]
  by_cases hflag :
      ((visitList ctx ((ctx.cases.length + 1) * (ctx.cases.length + 1))
        (selectBaseCases ctx collOpt casesOpt)).any
        (fun p => selectCond ctx true p.1 p.2)) = true
  · simp only [hflag, if_true, List.map_map, Bool.true_and]
    refine List.map_congr_left ?_
    intro coll _
    by_cases hc : coll.id ∈
        (visitList ctx ((ctx.cases.length + 1) * (ctx.cases.length + 1))
          (selectBaseCases ctx collOpt casesOpt)).map Prod.fst
    · simp [Function.comp, hc]
    · simp [Function.comp, hc]
  · simp only [Bool.not_eq_true] at hflag
    simp only [hflag, Bool.false_eq_true, if_false, Bool.false_and]
    refine List.map_congr_left ?_
    intro coll _
    by_cases hc : coll.id ∈
        (visitList ctx ((ctx.cases.length + 1) * (ctx.cases.length + 1))
          (selectBaseCases ctx collOpt casesOpt)).map Prod.fst
    · simp [hc]
    · simp [hc]

/-- Claim C4 counterexample: after one non-extending invocation selecting
case 5 (collection 1) and case 6 (collection 2), a second, separate,
non-extending `selectCases` call on collection 1 alone — re-selecting the
already-selected case 5 — does not clear collection 2's selection, contrary
to the claim that any collection not extended and not touched has its
selection cleared by such a call. -/
theorem selectCases_separate_call_noop_keeps_other_selection :
    selectionOf selAfterBoth 2 = some [6]
    ∧ selectionOf selAfterSecondNoop 2 = some [6]
    ∧ ¬ selectionOf selAfterSecondNoop 2 = some [] := by
  decide

/-- Claim C5 (amended): `selectionChangeCount` is incremented by a
`selectCases` invocation exactly when some visited case passes the code's
effective-change test against the pre-invocation selection state — for
selection, the case is not in its collection's selection or that selection
holds more than one case; for deselection, the case is in the selection.
In particular, re-selecting the sole selected case of a collection is a
complete no-op: the context is unchanged. -/
theorem selectionChangeCount_increment_characterization :
    (∀ (ctx : DataContext) (collOpt : Option Nat) (casesOpt : Option (List Nat))
        (select extendSel : Bool),
      (doSelectCases ctx collOpt casesOpt select extendSel).1.selectionChangeCount
        = ctx.selectionChangeCount
          + (if effectiveSelectionChange ctx collOpt casesOpt select then 1 else 0))
    ∧ (doSelectCases selCtxOne none (some [1]) true true).1 = selCtxOne := by
  constructor
  · intro ctx collOpt casesOpt select extendSel
    show (doSelectCases ctx collOpt casesOpt select extendSel).1.selectionChangeCount = _
    simp only [doSelectCases, visitCases_spec, effectiveSelectionChange, visitedPairs]
    simp only [Bool.false_or]
  · decide

/-- Claim C5 counterexample: with collection 7's selection holding the two
cases 1 and 2, re-selecting the already-selected case 1 with `extend` flips
no case's selection membership (the selections are unchanged), yet
`selectionChangeCount` is incremented, because the effective-change test
also fires whenever the touched selection holds more than one case. -/
theorem selectionChangeCount_increments_without_membership_flip :
    (doSelectCases selCtxTwo none (some [1]) true true).1.collections
      = selCtxTwo.collections
    ∧ (doSelectCases selCtxTwo none (some [1]) true true).1.selectionChangeCount
      = selCtxTwo.selectionChangeCount + 1 := by
  decide

/-- Claim C7: in a 2-level hierarchy where parent case P (= 1) has children
[2, 3, 4] and the row index presents the child collection, collapsing P and
refreshing yields one row holding P, and expanding P and refreshing yields
three rows holding the children in order.  (`getItem` returns the case
occupying the row, identified here by its ID.) -/
theorem rowIndex_collapse_expand_roundtrip :
    getLength rowMgrCollapsed = 1
    ∧ getItem rowMgrCollapsed 0 = some 1
    ∧ getLength rowMgrExpanded = 3
    ∧ getItem rowMgrExpanded 0 = some 2
    ∧ getItem rowMgrExpanded 1 = some 3
    ∧ getItem rowMgrExpanded 2 = some 4 := by
  decide

/-- Claim C8 (divergence witness): a second consecutive `refresh` recomputes
a row map of the same length as before, yet the row-count-changed
notification still fires, because the source compares the new row array
itself (not its length) against the previous length with `!==`, which is
always true for values of different runtime types. -/
theorem refresh_notifies_even_when_length_unchanged :
    (refresh rowMgrOnce).1.rowCaseMap.length = rowMgrOnce.rowCaseMap.length
    ∧ (refresh rowMgrOnce).2 = true := by
  decide

/-- Claim C9: `doSelectCases` returns `{success: true}` unconditionally —
for every selection change (any collection, any case list, any flags), and
at the `applyChange` level regardless of `isComplete`, the result reports
success. -/
theorem doSelectCases_always_success (ctx : DataContext) (collOpt : Option Nat)
    (casesOpt : Option (List Nat)) (select extendSel isComp : Bool) :
    (doSelectCases ctx collOpt casesOpt select extendSel).2 = { success := true }
    ∧ (applyChange ctx
        (Change.mk (ChangeOp.selectCases collOpt casesOpt select extendSel) isComp)).2.success
      = true := by
  constructor
  · rfl
  · cases isComp <;> rfl

/-- Claim C10: for a `deleteCases` change whose case list may contain both
an ancestor and one of its descendants, or the same case twice, each case is
destroyed at most once and its ID is recorded at most once: the recorded ID
list is duplicate-free, every recorded ID was alive before and is destroyed
after, and the captured undo data lists exactly the recorded IDs.  The
`rank` hypothesis expresses the acyclicity of the child graph that the
source's recursion assumes. -/
theorem deleteCases_destroys_each_case_once (ctx : DataContext) (caseIds : List Nat)
    (rank : Nat → Nat)
    (hr : ∀ c ∈ ctx.cases, ∀ ch ∈ c.children, rank ch < rank c.id) :
    (deleteCasesExecute ctx caseIds).ids.Nodup
    ∧ ((deleteCasesExecute ctx caseIds).ids.all
        (fun i => !(isDestroyedIn ctx i)
          && isDestroyedIn (deleteCasesExecute ctx caseIds).ctx i)) = true
    ∧ (deleteCasesExecute ctx caseIds).deleted.map (fun d => d.oldCaseId)
      = (deleteCasesExecute ctx caseIds).ids := by
  have hInit : DelInv rank { ctx := ctx } :=
    ⟨List.nodup_nil, fun i hi => absurd hi (List.not_mem_nil i), hr⟩
  have hB := rank_lt_bound rank caseIds
  have h := delRec_master rank ((ctx.cases.length + 1) * (ctx.cases.length + 1))
    caseIds { ctx := ctx } ((caseIds.map rank).foldr Nat.max 0 + 1) hB hInit
  unfold deleteCasesExecute
  refine ⟨h.1.1, ?_, delRec_deleted_parallel _ _ _ rfl⟩
  rw [List.all_eq_true]
  intro i hi
  have halive : isDestroyedIn ctx i = false := by
    rcases h.2.2.1 i hi with hin | hal
    · exact absurd hin (List.not_mem_nil i)
    · exact hal
  have hdead := h.1.2.1 i hi
  rw [halive, hdead]
  rfl

/-- The C6 context: root collection 1 (attribute 11) holds parent case 5
with value `pv`; child collection 2 (attributes 21, 22 — the first the
inherited copy of 11) is empty.  The values are arbitrary. -/
def c6Ctx (pv : DGValue) : DataContext :=
  { collections :=
      [ { id := 1, attrIds := [11], caseIds := [5] },
        { id := 2, parentCollectionId := some 1, attrIds := [21, 22] } ],
    cases := [ { id := 5, collectionId := 1, valuesMap := [(11, pv)] } ],
    nextCaseId := 100 }

/-- The C6 context after creating case 100 in the child collection under
parent case 5 through `applyChange`. -/
def c6AfterCreate (pv u1 : DGValue) : DataContext :=
  (applyChange (c6Ctx pv)
    (Change.mk (ChangeOp.createCase (some 2)
      (CaseProps.mk (some (ParentRef.byId 5)) none) (some [u1])) false)).1

/-- The delete-command execution deleting parent case 5 (which cascades to
the created child case 100) on the C6 context. -/
def c6Deleted (pv u1 : DGValue) : DelState :=
  deleteCasesExecute (c6AfterCreate pv u1) [5]

/-- The C6 context after undoing the deletion. -/
def c6AfterUndo (pv u1 : DGValue) : DataContext :=
  undoDeleteCases (c6Deleted pv u1).ctx (c6Deleted pv u1).deleted

/-- Claim C6: for the case created by `createCase` (ID 100, values `pv` for
the inherited attribute and `u1` for its own) and removed by `deleteCases`
together with its parent, undoing the deletion re-creates a visible case
set that is value-equivalent to the state before deletion: the parent is
re-created with its value and original index position under the new ID 101,
the child with the same values and index under the new ID 102, and the
parent linkage is remapped from the old parent ID 5 to the new case 101 —
value-equivalent, not ID-equivalent. -/
theorem deleteCases_undo_value_equivalent (pv u1 : DGValue) :
    getCaseByID (c6AfterCreate pv u1) 100
      = some (DGCase.mk 100 2 (some 5) [] [(21, pv), (22, u1)] false)
    ∧ getCaseByID (c6AfterCreate pv u1) 5
      = some (DGCase.mk 5 1 none [100] [(11, pv)] false)
    ∧ (getCollectionByID (c6AfterCreate pv u1) 1).map (fun coll => coll.caseIds)
      = some [5]
    ∧ (getCollectionByID (c6AfterCreate pv u1) 2).map (fun coll => coll.caseIds)
      = some [100]
    ∧ getCaseByID (c6AfterUndo pv u1) 101
      = some (DGCase.mk 101 1 none [102] [(11, pv)] false)
    ∧ getCaseByID (c6AfterUndo pv u1) 102
      = some (DGCase.mk 102 2 (some 101) [] [(21, pv), (22, u1)] false)
    ∧ (getCollectionByID (c6AfterUndo pv u1) 1).map (fun coll => coll.caseIds)
      = some [101]
    ∧ (getCollectionByID (c6AfterUndo pv u1) 2).map (fun coll => coll.caseIds)
      = some [102]
    ∧ getCaseByID (c6AfterUndo pv u1) 5 = none
    ∧ getCaseByID (c6AfterUndo pv u1) 100 = none := by
  have h1 : c6AfterCreate pv u1 =
      { collections :=
          [ { id := 1, attrIds := [11], caseIds := [5] },
            { id := 2, parentCollectionId := some 1, attrIds := [21, 22], caseIds := [100] } ],
        cases :=
          [ { id := 5, collectionId := 1, children := [100], valuesMap := [(11, pv)] },
            { id := 100, collectionId := 2, parent := some 5, valuesMap := [(21, pv), (22, u1)] } ],
        changes :=
          [ { change :=
                { op := ChangeOp.createCase (some 2)
                    { parent := some (ParentRef.byId 5) } (some [u1]) },
              result := { success := true, caseIDs := [100], caseID := some 100 } } ],
        changeCount := 1, nextCaseId := 101 } := rfl
  have h2 : c6Deleted pv u1 =
      { ctx :=
          { collections :=
              [ { id := 1, attrIds := [11] },
                { id := 2, parentCollectionId := some 1, attrIds := [21, 22] } ],
            cases :=
              [ { id := 5, collectionId := 1, valuesMap := [(11, pv)], isDestroyed := true },
                { id := 100, collectionId := 2, parent := some 5,
                  valuesMap := [(21, pv), (22, u1)], isDestroyed := true } ],
            changes :=
              [ { change :=
                    { op := ChangeOp.createCase (some 2)
                        { parent := some (ParentRef.byId 5) } (some [u1]) },
                  result := { success := true, caseIDs := [100], caseID := some 100 } } ],
            changeCount := 1, nextCaseId := 101 },
        ids := [100, 5],
        deleted :=
          [ { oldCaseId := 100, oldCollectionId := 2, oldParent := some 5,
              values := [(21, pv), (22, u1)], index := some 0 },
            { oldCaseId := 5, oldCollectionId := 1, oldParent := none,
              values := [(11, pv)], index := some 0 } ] } := by
    show deleteCasesExecute (c6AfterCreate pv u1) [5] = _
    rw [h1]
    rfl
  have h3 : c6AfterUndo pv u1 =
      { collections :=
          [ { id := 1, attrIds := [11], caseIds := [101] },
            { id := 2, parentCollectionId := some 1, attrIds := [21, 22], caseIds := [102] } ],
        cases :=
          [ { id := 5, collectionId := 1, valuesMap := [(11, pv)], isDestroyed := true },
            { id := 100, collectionId := 2, parent := some 5,
              valuesMap := [(21, pv), (22, u1)], isDestroyed := true },
            { id := 101, collectionId := 1, children := [102], valuesMap := [(11, pv)] },
            { id := 102, collectionId := 2, parent := some 101,
              valuesMap := [(21, pv), (22, u1)] } ],
        changes :=
          [ { change :=
                { op := ChangeOp.createCase (some 2)
                    { parent := some (ParentRef.byId 5) } (some [u1]) },
              result := { success := true, caseIDs := [100], caseID := some 100 } },
            { change :=
                { op := ChangeOp.createCase (some 1)
                    { parent := none, index := some 0 } (some [pv]) },
              result := { success := true, caseIDs := [101], caseID := some 101 } },
            { change :=
                { op := ChangeOp.createCase (some 2)
                    { parent := some (ParentRef.byCase 101), index := some 0 }
                    (some [pv, u1]) },
              result := { success := true, caseIDs := [102], caseID := some 102 } } ],
        changeCount := 3, nextCaseId := 103 } := by
    show undoDeleteCases (c6Deleted pv u1).ctx (c6Deleted pv u1).deleted = _
    rw [h2]
    rfl
  rw [h1, h3]
  refine ⟨rfl, rfl, rfl, rfl, rfl, rfl, rfl, rfl, rfl, rfl⟩

/-- Two-level hierarchy for the C10 witness: parent case 3 holds child
case 2. -/
def c10Ctx : DataContext :=
  { collections :=
      [ { id := 1, caseIds := [3] },
        { id := 2, parentCollectionId := some 1, caseIds := [2] } ],
    cases :=
      [ { id := 3, collectionId := 1, children := [2] },
        { id := 2, collectionId := 2, parent := some 3 } ],
    nextCaseId := 4 }

/-- Witness for C10 at a concrete input: deleting the list [3, 2, 3] — an
ancestor, its already-cascade-deleted descendant, and the ancestor again —
records each destroyed ID exactly once. -/
theorem deleteCases_destroys_each_case_once_witness :
    (deleteCasesExecute c10Ctx [3, 2, 3]).ids.Nodup
    ∧ ((deleteCasesExecute c10Ctx [3, 2, 3]).ids.all
        (fun i => !(isDestroyedIn c10Ctx i)
          && isDestroyedIn (deleteCasesExecute c10Ctx [3, 2, 3]).ctx i)) = true
    ∧ (deleteCasesExecute c10Ctx [3, 2, 3]).deleted.map (fun d => d.oldCaseId)
      = (deleteCasesExecute c10Ctx [3, 2, 3]).ids :=
  deleteCases_destroys_each_case_once c10Ctx [3, 2, 3] (fun i => i) (by decide)

end CODAP
